import Mathlib

/-!
Verification of the stride-db data layer.

This file gives a shallow embedding of the repository's source:

* the PowerSync sync connector (`SupabaseConnector.uploadData`,
  `SupabaseConnector.fetchCredentials`);
* the Supabase auth provider (`SupabaseAuthProvider.signIn`, `mapSession`);
* the `ProjectRepository` (mappers `toDomain` / `toDbInsert` / `toDbUpdate`
  and the operations `findById` / `create` / `update` / `delete`);
* the `TaskTypeRepository` (its mappers and `setDefault`).

The SQLite table backing a repository is modelled as a `List` of row records,
in insertion order.  A drizzle `update ... where` statement is a `List.map`
that rewrites exactly the rows matching the `where` clause; `insert` appends;
`findFirst` is `List.find?`.  The helper `now()` from `src/db/utils` (not part
of the snapshot) returns the current wall-clock timestamp as a string; it is
modelled throughout as an explicit `timestamp` argument, and `generateId()`
as an explicit `newId` argument.  Backends (Supabase auth and the remote
Postgres store) are modelled as oracles: the response the backend would give
is passed in as data.
-/

namespace StrideDb

/-! ### Supabase session and auth provider (SupabaseAuthProvider) -/

/-- The shape of a Supabase user as read by `mapSession`:
`id`, `email` (the source uses `email!`, i.e. assumes it present) and the
optional `user_metadata` fields. -/
structure SupabaseUser where
  id : String
  email : String
  firstName : Option String
  lastName : Option String
  avatarUrl : Option String
deriving DecidableEq

/-- A Supabase session: user, `access_token`, `refresh_token` and the
optional `expires_at` in epoch seconds. -/
structure SupabaseSession where
  user : SupabaseUser
  accessToken : String
  refreshToken : String
  expiresAt : Option Nat
deriving DecidableEq

/-- The backend-agnostic user inside an `AuthSession`; `timezone` is left
blank by `mapSession` and populated later from preferences. -/
structure AuthUser where
  id : String
  email : String
  firstName : Option String
  lastName : Option String
  avatarUrl : Option String
  timezone : String
deriving DecidableEq

/-- The backend-agnostic `AuthSession`; `expiresAt` is in epoch milliseconds
(the source computes `new Date(session.expires_at * 1000)`). -/
structure AuthSession where
  user : AuthUser
  accessToken : String
  refreshToken : String
  expiresAt : Option Nat
deriving DecidableEq

/-- `SupabaseAuthProvider.mapSession`: normalizes a backend session into the
backend-agnostic `AuthSession`. -/
def mapSession (session : SupabaseSession) : AuthSession :=
  { user :=
      { id := session.user.id
        email := session.user.email
        firstName := session.user.firstName
        lastName := session.user.lastName
        avatarUrl := session.user.avatarUrl
        timezone := "" }
    accessToken := session.accessToken
    refreshToken := session.refreshToken
    expiresAt := session.expiresAt.map (fun x => x * 1000) }

/-- The destructured response of `supabase.auth.signInWithPassword`:
an optional session and an optional error. -/
structure SignInResponse where
  session : Option SupabaseSession
  error : Option String

/-- `SupabaseAuthProvider.signIn`: throws the backend error if present,
throws `"No session returned"` if the backend succeeded without a session,
and otherwise returns the mapped session. -/
def signIn (resp : SignInResponse) : Except String AuthSession :=
  match resp.error with
  | some e => .error e
  | none =>
    match resp.session with
    | none => .error "No session returned"
    | some s => .ok (mapSession s)

/-! ### Sync connector: fetchCredentials (SupabaseConnector) -/

/-- The destructured response of `supabase.auth.getSession`. -/
structure GetSessionResponse where
  session : Option SupabaseSession
  error : Option String

/-- The credentials handed to PowerSync; `expiresAt` in epoch milliseconds. -/
structure PowerSyncCredentials where
  endpoint : String
  token : String
  expiresAt : Option Nat
deriving DecidableEq

/-- `SupabaseConnector.fetchCredentials`: propagates a session-lookup error,
returns `none` when there is no session, and otherwise builds credentials
from the PowerSync url and the session's access token. -/
def fetchCredentials (powersyncUrl : String) (resp : GetSessionResponse) :
    Except String (Option PowerSyncCredentials) :=
  match resp.error with
  | some e => .error e
  | none =>
    match resp.session with
    | none => .ok none
    | some session =>
      .ok (some
        { endpoint := powersyncUrl
          token := session.accessToken
          expiresAt := session.expiresAt.map (fun x => x * 1000) })

/-! ### Sync connector: uploadData (SupabaseConnector) -/

/-- The `op` discriminant of a PowerSync CRUD entry. -/
inductive CrudOpType where
  | put
  | patch
  | delete
deriving DecidableEq

/-- One pending local mutation: the operation kind, target table, row id and
the operation data (`op.opData`), modelled as a field-name/value list. -/
structure CrudEntry where
  op : CrudOpType
  table : String
  id : String
  opData : List (String × String)
deriving DecidableEq

/-- One write primitive invoked on the remote store.  `upsertById` carries
the payload `{ ...record, id }` with `onConflict: id`; `patchById` is
`update(record).eq(id, ·)`; `deleteById` is `delete().eq(id, ·)`. -/
inductive RemoteCall where
  | upsertById (table : String) (record : List (String × String)) (id : String)
  | patchById (table : String) (record : List (String × String)) (id : String)
  | deleteById (table : String) (id : String)
deriving DecidableEq

/-- The remote call issued for one CRUD entry, following the `switch` in
`uploadData`: PUT becomes upsert-by-id, PATCH becomes patch-by-id, DELETE
becomes delete-by-id. -/
def toRemoteCall (op : CrudEntry) : RemoteCall :=
  match op.op with
  | .put => .upsertById op.table op.opData op.id
  | .patch => .patchById op.table op.opData op.id
  | .delete => .deleteById op.table op.id

/-- The next pending CRUD transaction: its ordered list of operations. -/
structure CrudTransaction where
  crud : List CrudEntry

/-- The remote store as an oracle: `none` means the call succeeds, `some e`
means the backend reports error `e`. -/
abbrev RemoteStore := RemoteCall → Option String

/-- The observable outcome of one `uploadData` invocation: the remote calls
attempted (in order), whether `transaction.complete()` was called, and the
returned/raised result. -/
structure UploadOutcome where
  calls : List RemoteCall
  completed : Bool
  result : Except String Unit

/-- The `for (const op of transaction.crud)` loop: issue each operation's
remote call in order, stopping at (and re-raising) the first failure. -/
def runCrudOps (remote : RemoteStore) : List CrudEntry → List RemoteCall × Option String
  | [] => ([], none)
  | op :: rest =>
    let c := toRemoteCall op
    match remote c with
    | some e => ([c], some e)
    | none =>
      let r := runCrudOps remote rest
      (c :: r.1, r.2)

/-- `SupabaseConnector.uploadData`: a no-op when there is no pending
transaction; otherwise replays the batch and calls `transaction.complete()`
only when every remote call succeeded, re-raising the first error
otherwise. -/
def uploadData (remote : RemoteStore) (txn : Option CrudTransaction) : UploadOutcome :=
  match txn with
  | none => { calls := [], completed := false, result := .ok () }
  | some t =>
    match runCrudOps remote t.crud with
    | (cs, none) => { calls := cs, completed := true, result := .ok () }
    | (cs, some e) => { calls := cs, completed := false, result := .error e }

/-! ### Project repository (ProjectRepository, src/unnamed/part_003) -/

/-- A row of the `projects` table, per the drizzle schema: text id/keys,
nullable `description`/`color`, integer completion percentage, text audit
timestamps and the boolean soft-delete flag. -/
structure ProjectRow where
  id : String
  workspaceId : String
  userId : String
  name : String
  description : Option String
  color : Option String
  completionPercentage : Int
  createdAt : String
  updatedAt : String
  deleted : Bool
deriving DecidableEq

/-- The domain `Project` type: the row minus the DB-only fields
(`createdAt`, `updatedAt`, `deleted`). -/
structure Project where
  id : String
  workspaceId : String
  userId : String
  name : String
  description : Option String
  color : Option String
  completionPercentage : Int
deriving DecidableEq

/-- `Omit<Project, id>`: the input to `ProjectRepository.create`. -/
structure ProjectInput where
  workspaceId : String
  userId : String
  name : String
  description : Option String
  color : Option String
  completionPercentage : Int
deriving DecidableEq

/-- `Partial<Project>`: each field optionally provided.  For the nullable
columns the outer `Option` is "provided or not" and the inner one is the
SQL null. -/
structure ProjectPatch where
  id : Option String := none
  workspaceId : Option String := none
  userId : Option String := none
  name : Option String := none
  description : Option (Option String) := none
  color : Option (Option String) := none
  completionPercentage : Option Int := none
deriving DecidableEq

/-- `Omit<NewProjectRow, id>`: what `ProjectRepository`'s `toDbInsert`
produces. -/
structure ProjectRowNoId where
  workspaceId : String
  userId : String
  name : String
  description : Option String
  color : Option String
  completionPercentage : Int
  createdAt : String
  updatedAt : String
  deleted : Bool
deriving DecidableEq

/-- `Partial<ProjectRow>` as produced by `ProjectRepository`'s `toDbUpdate`:
the patch fields plus the restamped `updatedAt` (`createdAt` and `deleted`
are never set by it). -/
structure ProjectRowPatch where
  id : Option String := none
  workspaceId : Option String := none
  userId : Option String := none
  name : Option String := none
  description : Option (Option String) := none
  color : Option (Option String) := none
  completionPercentage : Option Int := none
  updatedAt : Option String := none
deriving DecidableEq

namespace ProjectRepository

/-- `toDomain` of the project repository: drops `createdAt`, `updatedAt`
and `deleted`. -/
def toDomain (row : ProjectRow) : Project :=
  { id := row.id
    workspaceId := row.workspaceId
    userId := row.userId
    name := row.name
    description := row.description
    color := row.color
    completionPercentage := row.completionPercentage }

/-- `toDbInsert` of the project repository.  The source calls `now()` once
and stamps it into both `createdAt` and `updatedAt`; the clock reading is
the explicit `timestamp` argument here. -/
def toDbInsert (project : ProjectInput) (timestamp : String) : ProjectRowNoId :=
  { workspaceId := project.workspaceId
    userId := project.userId
    name := project.name
    description := project.description
    color := project.color
    completionPercentage := project.completionPercentage
    createdAt := timestamp
    updatedAt := timestamp
    deleted := false }

/-- `toDbUpdate` of the project repository: spreads the provided fields and
restamps `updatedAt` with the current clock reading (`now()` in the source,
the explicit `timestamp` argument here). -/
def toDbUpdate (project : ProjectPatch) (timestamp : String) : ProjectRowPatch :=
  { id := project.id
    workspaceId := project.workspaceId
    userId := project.userId
    name := project.name
    description := project.description
    color := project.color
    completionPercentage := project.completionPercentage
    updatedAt := some timestamp }

/-- The predicate of `findById`'s `where` clause:
`and(eq(projects.id, id), eq(projects.deleted, false))`. -/
def activeWithId (id : String) (r : ProjectRow) : Bool :=
  r.id == id && !r.deleted

/-- `ProjectRepository.findById`: first row matching id with `deleted`
false, mapped to the domain type; `none` when absent or soft-deleted. -/
def findById (db : List ProjectRow) (id : String) : Option Project :=
  (db.find? (activeWithId id)).map toDomain

/-- The row built by `create`'s `insert` call: the generated id spread onto
the `toDbInsert` result. -/
def rowOfInsert (id : String) (v : ProjectRowNoId) : ProjectRow :=
  { id := id
    workspaceId := v.workspaceId
    userId := v.userId
    name := v.name
    description := v.description
    color := v.color
    completionPercentage := v.completionPercentage
    createdAt := v.createdAt
    updatedAt := v.updatedAt
    deleted := v.deleted }

/-- `ProjectRepository.create`: insert the new row (id from `generateId()`,
modelled as `newId`), then re-read through `findById`; a failed re-read
raises `"Failed to create project"`.  Returns the table after the insert
together with the result. -/
def create (db : List ProjectRow) (newId : String) (timestamp : String)
    (project : ProjectInput) : List ProjectRow × Except String Project :=
  let db2 := db ++ [rowOfInsert newId (toDbInsert project timestamp)]
  match findById db2 newId with
  | none => (db2, .error "Failed to create project")
  | some created => (db2, .ok created)

/-- Application of a drizzle `set` payload to one row: provided columns are
overwritten, absent ones kept. -/
def applyRowPatch (r : ProjectRow) (u : ProjectRowPatch) : ProjectRow :=
  { id := u.id.getD r.id
    workspaceId := u.workspaceId.getD r.workspaceId
    userId := u.userId.getD r.userId
    name := u.name.getD r.name
    description := u.description.getD r.description
    color := u.color.getD r.color
    completionPercentage := u.completionPercentage.getD r.completionPercentage
    createdAt := r.createdAt
    updatedAt := u.updatedAt.getD r.updatedAt
    deleted := r.deleted }

/-- `ProjectRepository.update`: apply `toDbUpdate updates` to every row
matching `id` with `deleted` false, then re-read through `findById`; a
failed re-read raises `"Project not found or was deleted"`.  Returns the
table after the update statement together with the result. -/
def update (db : List ProjectRow) (timestamp : String) (id : String)
    (updates : ProjectPatch) : List ProjectRow × Except String Project :=
  let dbUpdates := toDbUpdate updates timestamp
  let db2 := db.map fun r => if activeWithId id r then applyRowPatch r dbUpdates else r
  match findById db2 id with
  | none => (db2, .error "Project not found or was deleted")
  | some updated => (db2, .ok updated)

/-- `ProjectRepository.delete`: soft delete — set `deleted := true` and
restamp `updatedAt` on every row whose id matches (the `where` clause has
no `deleted = false` conjunct).  Returns void in the source, so here just
the new table; no error path exists. -/
def delete (db : List ProjectRow) (timestamp : String) (id : String) :
    List ProjectRow :=
  db.map fun r =>
    if r.id == id then { r with deleted := true, updatedAt := timestamp } else r

end ProjectRepository

/-! ### TaskType repository (TaskTypeRepository, src/src/repositories/task-type.repo.ts) -/

/-- A row of the `task_types` table: nullable `workspaceId` (personal task
types have none), the `isDefault` flag, `displayOrder` and `createdAt`
only (no `updatedAt`, no soft delete). -/
structure TaskTypeRow where
  id : String
  workspaceId : Option String
  userId : String
  name : String
  icon : Option String
  color : Option String
  isDefault : Bool
  displayOrder : Int
  createdAt : String
deriving DecidableEq

/-- The domain `TaskType` type: the row minus `createdAt`. -/
structure TaskType where
  id : String
  workspaceId : Option String
  userId : String
  name : String
  icon : Option String
  color : Option String
  isDefault : Bool
  displayOrder : Int
deriving DecidableEq

/-- `Omit<TaskType, id>`: the input to `TaskTypeRepository.create`. -/
structure TaskTypeInput where
  workspaceId : Option String
  userId : String
  name : String
  icon : Option String
  color : Option String
  isDefault : Bool
  displayOrder : Int
deriving DecidableEq

/-- `Partial<TaskType>`: each field optionally provided. -/
structure TaskTypePatch where
  id : Option String := none
  workspaceId : Option (Option String) := none
  userId : Option String := none
  name : Option String := none
  icon : Option (Option String) := none
  color : Option (Option String) := none
  isDefault : Option Bool := none
  displayOrder : Option Int := none
deriving DecidableEq

/-- `Omit<NewTaskTypeRow, id>`: what `TaskTypeRepository`'s `toDbInsert`
produces. -/
structure TaskTypeRowNoId where
  workspaceId : Option String
  userId : String
  name : String
  icon : Option String
  color : Option String
  isDefault : Bool
  displayOrder : Int
  createdAt : String
deriving DecidableEq

namespace TaskTypeRepository

/-- `toDomain` of the task-type repository: drops `createdAt`. -/
def toDomain (row : TaskTypeRow) : TaskType :=
  { id := row.id
    workspaceId := row.workspaceId
    userId := row.userId
    name := row.name
    icon := row.icon
    color := row.color
    isDefault := row.isDefault
    displayOrder := row.displayOrder }

/-- `toDbInsert` of the task-type repository: stamps `createdAt` with the
current clock reading (`now()` in the source, the explicit `timestamp`
argument here). -/
def toDbInsert (taskType : TaskTypeInput) (timestamp : String) : TaskTypeRowNoId :=
  { workspaceId := taskType.workspaceId
    userId := taskType.userId
    name := taskType.name
    icon := taskType.icon
    color := taskType.color
    isDefault := taskType.isDefault
    displayOrder := taskType.displayOrder
    createdAt := timestamp }

/-- `toDbUpdate` of the task-type repository: the identity — the source
returns its argument unchanged (the `task_types` table has no `updatedAt`
to restamp). -/
def toDbUpdate (taskType : TaskTypePatch) : TaskTypePatch :=
  taskType

/-- The first `update` statement of `setDefault` applied to one row:
`set({ isDefault: false }).where(eq(taskTypes.userId, userId))`. -/
def clearRow (userId : String) (r : TaskTypeRow) : TaskTypeRow :=
  if r.userId == userId then { r with isDefault := false } else r

/-- The second `update` statement of `setDefault` applied to one row:
`set({ isDefault: true }).where(eq(taskTypes.id, taskTypeId))` — keyed by
id only, with no user scoping. -/
def setRow (taskTypeId : String) (r : TaskTypeRow) : TaskTypeRow :=
  if r.id == taskTypeId then { r with isDefault := true } else r

/-- `TaskTypeRepository.setDefault`: unset `isDefault` on all of the user's
task types, then set it on the row whose id is `taskTypeId`. -/
def setDefault (db : List TaskTypeRow) (userId taskTypeId : String) :
    List TaskTypeRow :=
  (db.map (clearRow userId)).map (setRow taskTypeId)

end TaskTypeRepository

/-! ### Lemmas about the sync connector's upload loop -/

theorem runCrudOps_all_ok (remote : RemoteStore) (ops : List CrudEntry)
    (h : ∀ c ∈ ops.map toRemoteCall, remote c = none) :
    runCrudOps remote ops = (ops.map toRemoteCall, none) := by
  induction ops with
  | nil => rfl
  | cons op rest ih =>
    have hop : remote (toRemoteCall op) = none :=
      h _ (by simp [List.map_cons])
    have hrest : ∀ c ∈ rest.map toRemoteCall, remote c = none := by
      intro c hc
      exact h c (by simp [List.map_cons]; right; simpa using hc)
    simp only [runCrudOps, hop, ih hrest, List.map_cons]

theorem runCrudOps_err (remote : RemoteStore) (ops : List CrudEntry) (e : String)
    (h : (runCrudOps remote ops).2 = some e) :
    ∃ pre c post,
      ops.map toRemoteCall = pre ++ c :: post
      ∧ (∀ c' ∈ pre, remote c' = none)
      ∧ remote c = some e
      ∧ (runCrudOps remote ops).1 = pre ++ [c] := by
  induction ops with
  | nil => simp [runCrudOps] at h
  | cons op rest ih =>
    by_cases hop : ∃ e', remote (toRemoteCall op) = some e'
    · obtain ⟨e', he'⟩ := hop
      have hrun : runCrudOps remote (op :: rest) = ([toRemoteCall op], some e') := by
        simp [runCrudOps, he']
      have he : e' = e := by
        rw [hrun] at h
        simpa using h
      subst he
      exact ⟨[], toRemoteCall op, rest.map toRemoteCall,
        by simp [List.map_cons], by simp, he', by rw [hrun]; rfl⟩
    · push_neg at hop
      have hnone : remote (toRemoteCall op) = none := by
        cases hr : remote (toRemoteCall op) with
        | none => rfl
        | some e' => exact absurd hr (hop e')
      have hrun : runCrudOps remote (op :: rest) =
          (toRemoteCall op :: (runCrudOps remote rest).1, (runCrudOps remote rest).2) := by
        simp [runCrudOps, hnone]
      have htail : (runCrudOps remote rest).2 = some e := by
        rw [hrun] at h
        simpa using h
      obtain ⟨pre, c, post, h1, h2, h3, h4⟩ := ih htail
      refine ⟨toRemoteCall op :: pre, c, post, ?_, ?_, h3, ?_⟩
      · simp [List.map_cons, h1]
      · intro c' hc'
        rcases List.mem_cons.mp hc' with hc' | hc'
        · rwa [hc']
        · exact h2 c' hc'
      · rw [hrun]
        simp [h4]

/-- C1: `uploadData` replays a pending batch against the remote store in
original order, mapping create (PUT) to upsert-by-id, update (PATCH) to
patch-by-id and delete (DELETE) to delete-by-id (`toRemoteCall`); when every
remote call succeeds the batch is completed, and when any remote call fails
the calls stop at the first failure, `transaction.complete` is never called
and the error is re-raised, so the batch stays pending. -/
theorem uploadData_replays_in_order_and_aborts_on_failure
    (remote : RemoteStore) (txn : CrudTransaction) :
    ((∀ c ∈ txn.crud.map toRemoteCall, remote c = none) →
        uploadData remote (some txn) =
          { calls := txn.crud.map toRemoteCall, completed := true, result := .ok () })
    ∧ (∀ e, (uploadData remote (some txn)).result = .error e →
        (uploadData remote (some txn)).completed = false
        ∧ ∃ pre c post,
            txn.crud.map toRemoteCall = pre ++ c :: post
            ∧ (∀ c' ∈ pre, remote c' = none)
            ∧ remote c = some e
            ∧ (uploadData remote (some txn)).calls = pre ++ [c]) := by
  constructor
  · intro hok
    simp [uploadData, runCrudOps_all_ok remote txn.crud hok]
  · intro e he
    cases hrun : runCrudOps remote txn.crud with
    | mk cs r =>
      cases r with
      | none =>
        rw [show uploadData remote (some txn) =
            { calls := cs, completed := true, result := .ok () } by
          simp [uploadData, hrun]] at he
        simp at he
      | some e' =>
        have hupload : uploadData remote (some txn) =
            { calls := cs, completed := false, result := .error e' } := by
          simp [uploadData, hrun]
        have hee : e' = e := by
          rw [hupload] at he
          simpa using he
        subst hee
        have h2 : (runCrudOps remote txn.crud).2 = some e' := by rw [hrun]
        obtain ⟨pre, c, post, ha, hb, hc, hd⟩ := runCrudOps_err remote txn.crud e' h2
        refine ⟨by rw [hupload], pre, c, post, ha, hb, hc, ?_⟩
        rw [hupload]
        rw [hrun] at hd
        simpa using hd

/-- Witness for C1: the batch [create A, update A, delete A] against a
remote store that fails exactly on the delete: all three calls are issued
in order, the batch is not completed and the delete's error is re-raised. -/
theorem uploadData_witness :
    let txn : CrudTransaction :=
      ⟨[⟨.put, "projects", "A", [("name", "N")]⟩,
        ⟨.patch, "projects", "A", [("name", "M")]⟩,
        ⟨.delete, "projects", "A", []⟩]⟩
    let remote : RemoteStore := fun c =>
      match c with
      | .deleteById _ _ => some "delete rejected"
      | _ => none
    (uploadData remote (some txn)).completed = false
    ∧ (uploadData remote (some txn)).result = .error "delete rejected"
    ∧ (uploadData remote (some txn)).calls =
        [.upsertById "projects" [("name", "N")] "A",
         .patchById "projects" [("name", "M")] "A",
         .deleteById "projects" "A"] := by
  intro txn remote
  refine ⟨?_, by rfl, by rfl⟩
  exact ((uploadData_replays_in_order_and_aborts_on_failure remote txn).2
    "delete rejected" (by rfl)).1

/-! ### Auth provider and credential-fetch properties -/

/-- C6: `fetchCredentials` propagates a session-lookup error unchanged;
with no error and no active session it returns `none` (not an error); and
with an active session it returns credentials whose token equals the
session's access token. -/
theorem fetchCredentials_null_token_and_error
    (url : String) (resp : GetSessionResponse) :
    (∀ e, resp.error = some e → fetchCredentials url resp = .error e)
    ∧ (resp.error = none → resp.session = none →
        fetchCredentials url resp = .ok none)
    ∧ (∀ s, resp.error = none → resp.session = some s →
        ∃ cred, fetchCredentials url resp = .ok (some cred)
          ∧ cred.token = s.accessToken ∧ cred.endpoint = url) := by
  refine ⟨?_, ?_, ?_⟩
  · intro e he
    simp [fetchCredentials, he]
  · intro he hs
    simp [fetchCredentials, he, hs]
  · intro s he hs
    exact ⟨{ endpoint := url, token := s.accessToken,
             expiresAt := s.expiresAt.map (fun x => x * 1000) },
      by simp [fetchCredentials, he, hs], rfl, rfl⟩

/-- Witness for C6: a concrete response with an active session yields
credentials carrying exactly the session's access token; a concrete
response with no session yields `.ok none`. -/
theorem fetchCredentials_witness :
    let sess : SupabaseSession :=
      ⟨⟨"u1", "u@x.io", none, none, none⟩, "tok123", "ref456", some 1000⟩
    (∃ cred, fetchCredentials "https://ps.example" ⟨some sess, none⟩ = .ok (some cred)
      ∧ cred.token = "tok123" ∧ cred.endpoint = "https://ps.example")
    ∧ fetchCredentials "https://ps.example" ⟨none, none⟩ = .ok none
    ∧ fetchCredentials "https://ps.example" ⟨none, some "lookup down"⟩ =
        .error "lookup down" := by
  intro sess
  refine ⟨?_, ?_, ?_⟩
  · obtain ⟨cred, h1, h2, h3⟩ :=
      (fetchCredentials_null_token_and_error "https://ps.example"
        ⟨some sess, none⟩).2.2 sess rfl rfl
    exact ⟨cred, h1, h2, h3⟩
  · exact (fetchCredentials_null_token_and_error "https://ps.example"
      ⟨none, none⟩).2.1 rfl rfl
  · exact (fetchCredentials_null_token_and_error "https://ps.example"
      ⟨none, some "lookup down"⟩).1 "lookup down" rfl

/-- C7: `signIn` fails exactly when the backend reports an error or reports
success without a session; otherwise it returns the mapped session.  Its
return type carries a session on success, so it can never return null. -/
theorem signIn_fails_exactly_on_error_or_missing_session
    (resp : SignInResponse) :
    ((∃ e, signIn resp = .error e) ↔ (resp.error ≠ none ∨ resp.session = none))
    ∧ (∀ s, resp.error = none → resp.session = some s →
        signIn resp = .ok (mapSession s)) := by
  constructor
  · constructor
    · rintro ⟨e, he⟩
      cases herr : resp.error with
      | some e' => exact Or.inl (by simp [herr])
      | none =>
        cases hs : resp.session with
        | none => exact Or.inr rfl
        | some s =>
          rw [show signIn resp = .ok (mapSession s) by
            simp [signIn, herr, hs]] at he
          simp at he
    · rintro (herr | hs)
      · cases he : resp.error with
        | none => exact absurd he herr
        | some e => exact ⟨e, by simp [signIn, he]⟩
      · cases he : resp.error with
        | some e => exact ⟨e, by simp [signIn, he]⟩
        | none => exact ⟨"No session returned", by simp [signIn, he, hs]⟩
  · intro s he hs
    simp [signIn, he, hs]

/-- Witness for C7: a concrete successful backend response maps to the
normalized session; a sessionless success and a backend error both fail. -/
theorem signIn_witness :
    let sess : SupabaseSession :=
      ⟨⟨"u1", "u@x.io", some "Ada", none, none⟩, "tok123", "ref456", some 7⟩
    signIn ⟨some sess, none⟩ = .ok (mapSession sess)
    ∧ (∃ e, signIn ⟨none, none⟩ = .error e)
    ∧ (∃ e, signIn ⟨some sess, some "bad password"⟩ = .error e) := by
  intro sess
  refine ⟨?_, ?_, ?_⟩
  · exact (signIn_fails_exactly_on_error_or_missing_session
      ⟨some sess, none⟩).2 sess rfl rfl
  · exact (signIn_fails_exactly_on_error_or_missing_session
      ⟨none, none⟩).1.mpr (Or.inr rfl)
  · exact (signIn_fails_exactly_on_error_or_missing_session
      ⟨some sess, some "bad password"⟩).1.mpr (Or.inl (by simp))

/-! ### Mapping-layer properties -/

/-- A sample project input used by concrete counterexamples. -/
def sampleProjectInput : ProjectInput :=
  { workspaceId := "w1", userId := "u1", name := "P",
    description := none, color := none, completionPercentage := 0 }

/-- Counterexample for C8: the project repository's `toDbInsert` calls
`now()`, so two calls on the same domain input made at different clock
readings yield different outputs (the stamped `createdAt`/`updatedAt`
differ) — the output is not a function of the input alone. -/
theorem toDbInsert_not_input_deterministic :
    ProjectRepository.toDbInsert sampleProjectInput "2024-01-01T00:00:00.000Z" ≠
      ProjectRepository.toDbInsert sampleProjectInput "2024-01-02T00:00:00.000Z" := by
  decide

/-- C8 (amended): the three mappers are total and never fail — each is a
plain function of its input plus, for the timestamp-stamping ones, the
current clock reading.  `toDomain` (both repositories) and the task-type
`toDbUpdate` depend on their input alone; the project `toDbInsert` and
`toDbUpdate` and the task-type `toDbInsert` read `now()`, agree on every
non-timestamp field across clock readings, and stamp the clock reading
into the timestamp fields — so they are deterministic as functions of
(input, clock reading), not of the input alone. -/
theorem mappers_total_and_clock_determined
    (row : ProjectRow) (p : ProjectInput) (q : ProjectPatch)
    (trow : TaskTypeRow) (tp : TaskTypeInput) (tq : TaskTypePatch)
    (t t' : String) :
    ProjectRepository.toDomain row =
      { id := row.id, workspaceId := row.workspaceId, userId := row.userId,
        name := row.name, description := row.description, color := row.color,
        completionPercentage := row.completionPercentage }
    ∧ (ProjectRepository.toDbInsert p t).createdAt = t
    ∧ (ProjectRepository.toDbInsert p t).updatedAt = t
    ∧ ({ ProjectRepository.toDbInsert p t with createdAt := "", updatedAt := "" } =
        { ProjectRepository.toDbInsert p t' with createdAt := "", updatedAt := "" })
    ∧ (ProjectRepository.toDbUpdate q t).updatedAt = some t
    ∧ ({ ProjectRepository.toDbUpdate q t with updatedAt := none } =
        { ProjectRepository.toDbUpdate q t' with updatedAt := none })
    ∧ TaskTypeRepository.toDomain trow =
      { id := trow.id, workspaceId := trow.workspaceId, userId := trow.userId,
        name := trow.name, icon := trow.icon, color := trow.color,
        isDefault := trow.isDefault, displayOrder := trow.displayOrder }
    ∧ (TaskTypeRepository.toDbInsert tp t).createdAt = t
    ∧ ({ TaskTypeRepository.toDbInsert tp t with createdAt := "" } =
        { TaskTypeRepository.toDbInsert tp t' with createdAt := "" })
    ∧ TaskTypeRepository.toDbUpdate tq = tq := by
  exact ⟨rfl, rfl, rfl, rfl, rfl, rfl, rfl, rfl, rfl, rfl⟩

/-! ### Project repository properties -/

/-- C3: `ProjectRepository.delete` is a soft delete.  After deleting an id
that names a row, `findById` returns null, yet a row with that id is still
in the table: its `deleted` flag is set, its `updatedAt` is restamped and
every other field is untouched, so a query ignoring the flag still
resolves it. -/
theorem delete_is_soft (db : List ProjectRow) (ts id : String) (r : ProjectRow)
    (hr : r ∈ db) (hid : r.id = id) :
    ProjectRepository.findById (ProjectRepository.delete db ts id) id = none
    ∧ ∃ r' ∈ ProjectRepository.delete db ts id,
        r'.id = id ∧ r'.deleted = true ∧ r'.updatedAt = ts
        ∧ r'.workspaceId = r.workspaceId ∧ r'.userId = r.userId
        ∧ r'.name = r.name ∧ r'.description = r.description
        ∧ r'.color = r.color
        ∧ r'.completionPercentage = r.completionPercentage
        ∧ r'.createdAt = r.createdAt := by
  constructor
  · unfold ProjectRepository.findById
    have hnone : (ProjectRepository.delete db ts id).find?
        (ProjectRepository.activeWithId id) = none := by
      apply List.find?_eq_none.mpr
      intro x hx
      obtain ⟨y, hy, hfy⟩ := List.mem_map.mp hx
      subst hfy
      by_cases hyid : y.id = id
      · simp [ProjectRepository.activeWithId, hyid]
      · have hb : (y.id == id) = false := beq_eq_false_iff_ne.mpr hyid
        simp [ProjectRepository.activeWithId, hb]
    rw [hnone]
    rfl
  · refine ⟨{ r with deleted := true, updatedAt := ts }, ?_,
      hid, rfl, rfl, rfl, rfl, rfl, rfl, rfl, rfl, rfl⟩
    have hb : (r.id == id) = true := beq_iff_eq.mpr hid
    have := List.mem_map_of_mem
      (f := fun r0 => if r0.id == id then { r0 with deleted := true, updatedAt := ts } else r0) hr
    simpa [ProjectRepository.delete, hb] using this

/-- Witness for C3: a two-row table; deleting the first row hides it from
`findById` while the flagged row is still present with its fields intact. -/
theorem delete_is_soft_witness :
    let r1 : ProjectRow :=
      ⟨"p1", "w1", "u1", "Alpha", none, none, 10, "t0", "t0", false⟩
    let r2 : ProjectRow :=
      ⟨"p2", "w1", "u1", "Beta", none, none, 0, "t0", "t0", false⟩
    ProjectRepository.findById (ProjectRepository.delete [r1, r2] "t1" "p1") "p1" = none
    ∧ ∃ r' ∈ ProjectRepository.delete [r1, r2] "t1" "p1",
        r'.id = "p1" ∧ r'.deleted = true ∧ r'.updatedAt = "t1"
        ∧ r'.workspaceId = r1.workspaceId ∧ r'.userId = r1.userId
        ∧ r'.name = r1.name ∧ r'.description = r1.description
        ∧ r'.color = r1.color
        ∧ r'.completionPercentage = r1.completionPercentage
        ∧ r'.createdAt = r1.createdAt := by
  intro r1 r2
  exact delete_is_soft [r1, r2] "t1" "p1" r1 (by simp) rfl

/-- C10: `ProjectRepository.delete` never raises: for every id — matching a
row, matching none, or matching an already-deleted row — it completes and
returns, preserving the table's length, leaving every row with a different
id unchanged, and leaving the whole table unchanged when no row matches. -/
theorem delete_total_and_frame (db : List ProjectRow) (ts id : String) :
    (ProjectRepository.delete db ts id).length = db.length
    ∧ (∀ i (h : i < db.length), (db.get ⟨i, h⟩).id ≠ id →
        (ProjectRepository.delete db ts id)[i]? = some (db.get ⟨i, h⟩))
    ∧ ((∀ r0 ∈ db, r0.id ≠ id) → ProjectRepository.delete db ts id = db) := by
  refine ⟨List.length_map _ _, ?_, ?_⟩
  · intro i h hne
    have hb : ((db.get ⟨i, h⟩).id == id) = false := beq_eq_false_iff_ne.mpr hne
    simp only [List.get_eq_getElem] at hb
    unfold ProjectRepository.delete
    rw [List.getElem?_map]
    rw [List.getElem?_eq_getElem h]
    simp only [List.get_eq_getElem, Option.map_some']
    rw [show (db[i].id == id) = false from hb]
    simp
  · intro hall
    unfold ProjectRepository.delete
    have hpt : ∀ r0 ∈ db,
        (if r0.id == id then { r0 with deleted := true, updatedAt := ts } else r0) = r0 := by
      intro r0 hr0
      simp [beq_eq_false_iff_ne.mpr (hall r0 hr0)]
    induction db with
    | nil => rfl
    | cons x xs ih =>
      simp only [List.map_cons]
      rw [hpt x (by simp), ih (fun r0 hr0 => hall r0 (by simp [hr0]))
        (fun r0 hr0 => hpt r0 (by simp [hr0]))]

/-- Witness for C10: deleting an absent id from a concrete table leaves it
unchanged, and the frame conjunct holds at a concrete index. -/
theorem delete_total_and_frame_witness :
    let r1 : ProjectRow :=
      ⟨"p1", "w1", "u1", "Alpha", none, none, 10, "t0", "t0", false⟩
    (ProjectRepository.delete [r1] "t1" "zzz").length = 1
    ∧ (ProjectRepository.delete [r1] "t1" "zzz")[0]? = some r1
    ∧ ProjectRepository.delete [r1] "t1" "zzz" = [r1] := by
  intro r1
  obtain ⟨h1, h2, h3⟩ := delete_total_and_frame [r1] "t1" "zzz"
  exact ⟨h1, h2 0 (by simp) (by decide), h3 (by decide)⟩

/-- C4: create/findById round-trip.  When the generated id is fresh,
`create` then re-read returns a domain object whose fields equal the input
modulo the generated id (the domain type carries no timestamps), and a
subsequent `findById` on the new id finds it; and whenever the post-insert
re-read comes back empty, `create` fails with the creation-failed error
rather than returning null. -/
theorem create_findById_roundtrip (db : List ProjectRow)
    (newId ts : String) (p : ProjectInput) :
    ((∀ r0 ∈ db, r0.id ≠ newId) →
      (ProjectRepository.create db newId ts p).2 =
        .ok { id := newId, workspaceId := p.workspaceId, userId := p.userId,
              name := p.name, description := p.description, color := p.color,
              completionPercentage := p.completionPercentage }
      ∧ ProjectRepository.findById (ProjectRepository.create db newId ts p).1 newId =
          some { id := newId, workspaceId := p.workspaceId, userId := p.userId,
                 name := p.name, description := p.description, color := p.color,
                 completionPercentage := p.completionPercentage })
    ∧ (ProjectRepository.findById
        (db ++ [ProjectRepository.rowOfInsert newId (ProjectRepository.toDbInsert p ts)])
        newId = none →
      (ProjectRepository.create db newId ts p).2 = .error "Failed to create project") := by
  constructor
  · intro hfresh
    have hfind : ProjectRepository.findById
        (db ++ [ProjectRepository.rowOfInsert newId (ProjectRepository.toDbInsert p ts)])
        newId =
        some { id := newId, workspaceId := p.workspaceId, userId := p.userId,
               name := p.name, description := p.description, color := p.color,
               completionPercentage := p.completionPercentage } := by
      unfold ProjectRepository.findById
      rw [List.find?_append]
      rw [List.find?_eq_none.mpr]
      · simp [ProjectRepository.activeWithId, ProjectRepository.rowOfInsert,
          ProjectRepository.toDbInsert, ProjectRepository.toDomain]
      · intro x hx
        have hb : (x.id == newId) = false := beq_eq_false_iff_ne.mpr (hfresh x hx)
        simp [ProjectRepository.activeWithId, hb]
    constructor
    · simp only [ProjectRepository.create, hfind]
    · simp only [ProjectRepository.create, hfind]
  · intro hnone
    simp only [ProjectRepository.create, hnone]

/-- Witness for C4: creating a concrete project in a one-row table with a
fresh id round-trips to the input fields. -/
theorem create_findById_roundtrip_witness :
    let r1 : ProjectRow :=
      ⟨"p1", "w1", "u1", "Alpha", none, none, 10, "t0", "t0", false⟩
    (ProjectRepository.create [r1] "p2" "t1" sampleProjectInput).2 =
      .ok { id := "p2", workspaceId := "w1", userId := "u1", name := "P",
            description := none, color := none, completionPercentage := 0 }
    ∧ ProjectRepository.findById
        (ProjectRepository.create [r1] "p2" "t1" sampleProjectInput).1 "p2" =
        some { id := "p2", workspaceId := "w1", userId := "u1", name := "P",
               description := none, color := none, completionPercentage := 0 } := by
  intro r1
  exact (create_findById_roundtrip [r1] "p2" "t1" sampleProjectInput).1 (by decide)

/-- A map whose function fixes every element of the list is the identity. -/
theorem map_eq_self_of_fixes {α : Type} (l : List α) (f : α → α)
    (h : ∀ x ∈ l, f x = x) : l.map f = l := by
  induction l with
  | nil => rfl
  | cons x xs ih =>
    simp only [List.map_cons]
    rw [h x (by simp), ih (fun x0 hx0 => h x0 (by simp [hx0]))]

/-- `find?` commutes with a map that preserves the predicate. -/
theorem find_map_of_pred_comm {α : Type} (l : List α) (f : α → α) (p : α → Bool)
    (h : ∀ x, p (f x) = p x) : (l.map f).find? p = (l.find? p).map f := by
  induction l with
  | nil => rfl
  | cons x xs ih =>
    simp only [List.map_cons, List.find?_cons]
    rw [h x]
    cases hp : p x
    · simpa using ih
    · rfl

/-- With pairwise-distinct ids, the first active row matching an id is the
unique member carrying that id. -/
theorem find_active_of_nodup (db : List ProjectRow) (r : ProjectRow) (id : String)
    (hnodup : (db.map ProjectRow.id).Nodup) (hmem : r ∈ db)
    (hid : r.id = id) (hdel : r.deleted = false) :
    db.find? (ProjectRepository.activeWithId id) = some r := by
  induction db with
  | nil => cases hmem
  | cons x xs ih =>
    rcases List.mem_cons.mp hmem with h | h
    · subst h
      simp [List.find?_cons, ProjectRepository.activeWithId, hid, hdel]
    · have hxne : x.id ≠ id := by
        intro hxid
        have hin : x.id ∈ xs.map ProjectRow.id := by
          rw [hxid, ← hid]
          exact List.mem_map_of_mem _ h
        exact (List.nodup_cons.mp (by simpa using hnodup)).1 hin
      have hpx : ProjectRepository.activeWithId id x = false := by
        simp [ProjectRepository.activeWithId, beq_eq_false_iff_ne.mpr hxne]
      rw [List.find?_cons, hpx]
      exact ih (List.nodup_cons.mp (by simpa using hnodup)).2 h

/-- The table component of `ProjectRepository.update`'s result is the input
table with the patch applied to exactly the rows matched by the `where`
clause. -/
theorem update_table (db : List ProjectRow) (ts id : String) (q : ProjectPatch) :
    (ProjectRepository.update db ts id q).1 =
      db.map fun r => if ProjectRepository.activeWithId id r
        then ProjectRepository.applyRowPatch r (ProjectRepository.toDbUpdate q ts)
        else r := by
  simp only [ProjectRepository.update]
  split <;> rfl

/-- C5: `ProjectRepository.update` applies only the provided fields.  If
every row with the target id is soft-deleted (or no row has the id), it
leaves the table unchanged and fails with the not-found error.  For an
existing non-deleted row it leaves every row with a different id
untouched, and the target row keeps every non-provided field, keeps
`createdAt` and `deleted`, takes the provided values, and gets `updatedAt`
restamped to the fresh clock reading; with distinct ids and a patch that
does not rewrite the primary key, the updated entity is returned. -/
theorem update_only_provided_fields (db : List ProjectRow) (ts id : String)
    (q : ProjectPatch) :
    ((∀ r0 ∈ db, r0.id = id → r0.deleted = true) →
        ProjectRepository.update db ts id q =
          (db, .error "Project not found or was deleted"))
    ∧ ∀ r ∈ db, r.id = id → r.deleted = false →
        ((∀ i (h : i < db.length), (db.get ⟨i, h⟩).id ≠ id →
            ((ProjectRepository.update db ts id q).1)[i]? = some (db.get ⟨i, h⟩))
         ∧ (∃ r' ∈ (ProjectRepository.update db ts id q).1,
              r' = { id := q.id.getD r.id,
                     workspaceId := q.workspaceId.getD r.workspaceId,
                     userId := q.userId.getD r.userId,
                     name := q.name.getD r.name,
                     description := q.description.getD r.description,
                     color := q.color.getD r.color,
                     completionPercentage :=
                       q.completionPercentage.getD r.completionPercentage,
                     createdAt := r.createdAt, updatedAt := ts,
                     deleted := false })
         ∧ ((db.map ProjectRow.id).Nodup → q.id = none →
             (ProjectRepository.update db ts id q).2 =
               .ok { id := r.id,
                     workspaceId := q.workspaceId.getD r.workspaceId,
                     userId := q.userId.getD r.userId,
                     name := q.name.getD r.name,
                     description := q.description.getD r.description,
                     color := q.color.getD r.color,
                     completionPercentage :=
                       q.completionPercentage.getD r.completionPercentage })) := by
  constructor
  · intro hall
    have hfix : ∀ r0 ∈ db,
        (if ProjectRepository.activeWithId id r0
          then ProjectRepository.applyRowPatch r0 (ProjectRepository.toDbUpdate q ts)
          else r0) = r0 := by
      intro r0 hr0
      have : ProjectRepository.activeWithId id r0 = false := by
        by_cases h0 : r0.id = id
        · simp [ProjectRepository.activeWithId, h0, hall r0 hr0 h0]
        · simp [ProjectRepository.activeWithId, beq_eq_false_iff_ne.mpr h0]
      simp [this]
    have hmapid : (db.map fun r => if ProjectRepository.activeWithId id r
        then ProjectRepository.applyRowPatch r (ProjectRepository.toDbUpdate q ts)
        else r) = db := map_eq_self_of_fixes db _ hfix
    have hnone : ProjectRepository.findById db id = none := by
      unfold ProjectRepository.findById
      rw [List.find?_eq_none.mpr]
      · rfl
      · intro x hx
        by_cases h0 : x.id = id
        · simp [ProjectRepository.activeWithId, h0, hall x hx h0]
        · simp [ProjectRepository.activeWithId, beq_eq_false_iff_ne.mpr h0]
    simp only [ProjectRepository.update, hmapid, hnone]
  · intro r hmem hid hdel
    have hactive : ProjectRepository.activeWithId id r = true := by
      simp [ProjectRepository.activeWithId, hid, hdel]
    refine ⟨?_, ?_, ?_⟩
    · intro i h hne
      rw [update_table]
      rw [List.getElem?_map, List.getElem?_eq_getElem h]
      have hb : ((db.get ⟨i, h⟩).id == id) = false := beq_eq_false_iff_ne.mpr hne
      simp only [List.get_eq_getElem] at hb
      have hfalse : ProjectRepository.activeWithId id db[i] = false := by
        simp [ProjectRepository.activeWithId, hb]
      simp only [List.get_eq_getElem, Option.map_some']
      rw [hfalse]
      simp
    · refine ⟨ProjectRepository.applyRowPatch r (ProjectRepository.toDbUpdate q ts),
        ?_, ?_⟩
      · rw [update_table]
        have := List.mem_map_of_mem
          (f := fun r0 => if ProjectRepository.activeWithId id r0
            then ProjectRepository.applyRowPatch r0 (ProjectRepository.toDbUpdate q ts)
            else r0) hmem
        simpa [hactive] using this
      · simp [ProjectRepository.applyRowPatch, ProjectRepository.toDbUpdate, hdel]
    · intro hnodup hqid
      have hpres : ∀ x, ProjectRepository.activeWithId id
          (if ProjectRepository.activeWithId id x
            then ProjectRepository.applyRowPatch x (ProjectRepository.toDbUpdate q ts)
            else x) = ProjectRepository.activeWithId id x := by
        intro x
        by_cases hx : ProjectRepository.activeWithId id x = true
        · have hxid : (ProjectRepository.applyRowPatch x
              (ProjectRepository.toDbUpdate q ts)).id = x.id := by
            simp [ProjectRepository.applyRowPatch, ProjectRepository.toDbUpdate, hqid]
          have hxdel : (ProjectRepository.applyRowPatch x
              (ProjectRepository.toDbUpdate q ts)).deleted = x.deleted := by
            simp [ProjectRepository.applyRowPatch, ProjectRepository.toDbUpdate]
          rw [if_pos hx]
          simp only [ProjectRepository.activeWithId]
          rw [hxid, hxdel]
        · rw [if_neg hx]
      have hfind2 : ProjectRepository.findById
          (db.map fun r0 => if ProjectRepository.activeWithId id r0
            then ProjectRepository.applyRowPatch r0 (ProjectRepository.toDbUpdate q ts)
            else r0) id =
          some (ProjectRepository.toDomain
            (ProjectRepository.applyRowPatch r (ProjectRepository.toDbUpdate q ts))) := by
        unfold ProjectRepository.findById
        rw [find_map_of_pred_comm _ _ _ hpres]
        rw [find_active_of_nodup db r id hnodup hmem hid hdel]
        simp [hactive]
      have hdom : ProjectRepository.toDomain
          (ProjectRepository.applyRowPatch r (ProjectRepository.toDbUpdate q ts)) =
          { id := r.id,
            workspaceId := q.workspaceId.getD r.workspaceId,
            userId := q.userId.getD r.userId,
            name := q.name.getD r.name,
            description := q.description.getD r.description,
            color := q.color.getD r.color,
            completionPercentage :=
              q.completionPercentage.getD r.completionPercentage } := by
        simp [ProjectRepository.toDomain, ProjectRepository.applyRowPatch,
          ProjectRepository.toDbUpdate, hqid]
      simp only [ProjectRepository.update, hfind2, hdom]

/-- Witness for C5: a concrete single-field update (`name`) on a two-row
table changes only that field on the target row, restamps `updatedAt`,
leaves the other row untouched and returns the updated entity; a concrete
update of an absent id fails with the not-found error. -/
theorem update_only_provided_fields_witness :
    let r1 : ProjectRow :=
      ⟨"p1", "w1", "u1", "Alpha", none, none, 10, "t0", "t0", false⟩
    let r2 : ProjectRow :=
      ⟨"p2", "w1", "u1", "Beta", none, none, 0, "t0", "t0", false⟩
    let q : ProjectPatch := { name := some "Gamma" }
    ((ProjectRepository.update [r1, r2] "t1" "p1" q).1)[1]? = some r2
    ∧ (∃ r' ∈ (ProjectRepository.update [r1, r2] "t1" "p1" q).1,
        r' = ⟨"p1", "w1", "u1", "Gamma", none, none, 10, "t0", "t1", false⟩)
    ∧ (ProjectRepository.update [r1, r2] "t1" "p1" q).2 =
        .ok ⟨"p1", "w1", "u1", "Gamma", none, none, 10⟩
    ∧ ProjectRepository.update [r1, r2] "t1" "zzz" q =
        ([r1, r2], .error "Project not found or was deleted") := by
  intro r1 r2 q
  obtain ⟨herr, hrows⟩ := update_only_provided_fields [r1, r2] "t1" "p1" q
  obtain ⟨hframe, hrow, hret⟩ := hrows r1 (by simp) rfl rfl
  refine ⟨?_, ?_, ?_, ?_⟩
  · exact hframe 1 (by simp) (by decide)
  · obtain ⟨r', hmem', heq'⟩ := hrow
    exact ⟨r', hmem', by rw [heq']; rfl⟩
  · have := hret (by decide) rfl
    simpa using this
  · exact (update_only_provided_fields [r1, r2] "t1" "zzz" q).1 (by decide)

/-! ### TaskType setDefault properties -/

theorem clearRow_id (u : String) (r : TaskTypeRow) :
    (TaskTypeRepository.clearRow u r).id = r.id := by
  unfold TaskTypeRepository.clearRow
  split <;> rfl

theorem clearRow_userId (u : String) (r : TaskTypeRow) :
    (TaskTypeRepository.clearRow u r).userId = r.userId := by
  unfold TaskTypeRepository.clearRow
  split <;> rfl

theorem setRow_id (t : String) (r : TaskTypeRow) :
    (TaskTypeRepository.setRow t r).id = r.id := by
  unfold TaskTypeRepository.setRow
  split <;> rfl

theorem setRow_userId (t : String) (r : TaskTypeRow) :
    (TaskTypeRepository.setRow t r).userId = r.userId := by
  unfold TaskTypeRepository.setRow
  split <;> rfl

/-- `setDefault` as a single pass: the two sequential update statements
composed row-wise. -/
theorem setDefault_eq_map (db : List TaskTypeRow) (u t : String) :
    TaskTypeRepository.setDefault db u t =
      db.map (fun r => TaskTypeRepository.setRow t (TaskTypeRepository.clearRow u r)) := by
  unfold TaskTypeRepository.setDefault
  rw [List.map_map]
  rfl

/-- The final `isDefault` of a row after `setDefault`: set when the id
matches, cleared when the id differs but the user matches, untouched
otherwise. -/
theorem setDefault_row_isDefault (u t : String) (r : TaskTypeRow) :
    (TaskTypeRepository.setRow t (TaskTypeRepository.clearRow u r)).isDefault =
      (if r.id = t then true else if r.userId = u then false else r.isDefault) := by
  have hcid : (TaskTypeRepository.clearRow u r).id = r.id := clearRow_id u r
  by_cases ht : r.id = t
  · have hset : TaskTypeRepository.setRow t (TaskTypeRepository.clearRow u r) =
        { TaskTypeRepository.clearRow u r with isDefault := true } := by
      unfold TaskTypeRepository.setRow
      rw [if_pos (by rw [hcid]; exact beq_iff_eq.mpr ht)]
    rw [hset, if_pos ht]
  · have hset : TaskTypeRepository.setRow t (TaskTypeRepository.clearRow u r) =
        TaskTypeRepository.clearRow u r := by
      unfold TaskTypeRepository.setRow
      rw [if_neg (by rw [hcid]; simpa using ht)]
    rw [hset, if_neg ht]
    unfold TaskTypeRepository.clearRow
    by_cases hu : r.userId = u
    · rw [if_pos (beq_iff_eq.mpr hu), if_pos hu]
    · rw [if_neg (by simpa using hu), if_neg hu]

/-- A row neither owned by the user nor carrying the target id passes
through `setDefault` unchanged. -/
theorem setDefault_row_untouched (u t : String) (r : TaskTypeRow)
    (hu : r.userId ≠ u) (ht : r.id ≠ t) :
    TaskTypeRepository.setRow t (TaskTypeRepository.clearRow u r) = r := by
  have hclear : TaskTypeRepository.clearRow u r = r := by
    unfold TaskTypeRepository.clearRow
    rw [if_neg (by simpa using hu)]
  rw [hclear]
  unfold TaskTypeRepository.setRow
  rw [if_neg (by simpa using ht)]

/-- The default-count after `setDefault` equals the number of rows owned by
the user that carry the target id. -/
theorem setDefault_countP (db : List TaskTypeRow) (u t : String) :
    (TaskTypeRepository.setDefault db u t).countP
        (fun r => r.userId == u && r.isDefault) =
      db.countP (fun r => r.userId == u && r.id == t) := by
  rw [setDefault_eq_map, List.countP_map]
  apply List.countP_congr
  intro r _
  simp only [Function.comp]
  rw [setRow_userId, clearRow_userId, setDefault_row_isDefault]
  by_cases ht : r.id = t
  · simp [ht]
  · by_cases hu : r.userId = u
    · simp [ht, hu]
    · simp [ht, hu]

/-- With pairwise-distinct ids, a table holding a row owned by `u` with id
`t` has exactly one row satisfying (owned by `u` and id `t`). -/
theorem countP_owner_id_eq_one (db : List TaskTypeRow) (u t : String)
    (r0 : TaskTypeRow) (hnodup : (db.map TaskTypeRow.id).Nodup)
    (hmem : r0 ∈ db) (hid : r0.id = t) (huser : r0.userId = u) :
    db.countP (fun r => r.userId == u && r.id == t) = 1 := by
  induction db with
  | nil => cases hmem
  | cons x xs ih =>
    rw [List.countP_cons]
    rcases List.mem_cons.mp hmem with h | h
    · subst h
      have hzero : xs.countP (fun r => r.userId == u && r.id == t) = 0 := by
        apply List.countP_eq_zero.mpr
        intro a ha
        have hane : a.id ≠ t := by
          intro hat
          have : r0.id ∈ xs.map TaskTypeRow.id := by
            rw [hid, ← hat]
            exact List.mem_map_of_mem _ ha
          exact (List.nodup_cons.mp (by simpa using hnodup)).1 this
        simp [beq_eq_false_iff_ne.mpr hane]
      rw [hzero]
      simp [beq_iff_eq.mpr hid, beq_iff_eq.mpr huser]
    · have hxne : x.id ≠ t := by
        intro hxt
        have : x.id ∈ xs.map TaskTypeRow.id := by
          rw [hxt, ← hid]
          exact List.mem_map_of_mem _ h
        exact (List.nodup_cons.mp (by simpa using hnodup)).1 this
      rw [ih (List.nodup_cons.mp (by simpa using hnodup)).2 h]
      simp [beq_eq_false_iff_ne.mpr hxne]

/-- C2: for a task type `t` owned by `u`, one sequential `setDefault` call
leaves exactly one of `u`'s task types flagged as the default, namely `t`:
the default-count for `u` is one, and among the user's rows `isDefault`
holds exactly on the row whose id is `t`. -/
theorem setDefault_leaves_exactly_one_default (db : List TaskTypeRow)
    (u t : String) (r0 : TaskTypeRow)
    (hmem : r0 ∈ db) (hid : r0.id = t) (huser : r0.userId = u)
    (hnodup : (db.map TaskTypeRow.id).Nodup) :
    (TaskTypeRepository.setDefault db u t).countP
        (fun r => r.userId == u && r.isDefault) = 1
    ∧ ∀ r' ∈ TaskTypeRepository.setDefault db u t, r'.userId = u →
        (r'.isDefault = true ↔ r'.id = t) := by
  constructor
  · rw [setDefault_countP]
    exact countP_owner_id_eq_one db u t r0 hnodup hmem hid huser
  · intro r' hr' hu'
    rw [setDefault_eq_map] at hr'
    obtain ⟨r, hr, hfr⟩ := List.mem_map.mp hr'
    subst hfr
    rw [setRow_id, clearRow_id]
    rw [setDefault_row_isDefault]
    by_cases ht : r.id = t
    · simp [ht]
    · have hru : r.userId = u := by
        rw [setRow_userId, clearRow_userId] at hu'
        exact hu'
      simp [ht, hru]

/-- Witness for C2: a user with two task types; `setDefault` moves the flag
from the first to the second, leaving exactly one default. -/
theorem setDefault_leaves_exactly_one_default_witness :
    let r1 : TaskTypeRow := ⟨"t1", none, "u", "Focus", none, none, true, 0, "c0"⟩
    let r2 : TaskTypeRow := ⟨"t2", none, "u", "Break", none, none, false, 1, "c0"⟩
    (TaskTypeRepository.setDefault [r1, r2] "u" "t2").countP
        (fun r => r.userId == "u" && r.isDefault) = 1
    ∧ ∀ r' ∈ TaskTypeRepository.setDefault [r1, r2] "u" "t2", r'.userId = "u" →
        (r'.isDefault = true ↔ r'.id = "t2") := by
  intro r1 r2
  exact setDefault_leaves_exactly_one_default [r1, r2] "u" "t2" r2
    (by simp) rfl rfl (by decide)

/-- C9: the second update statement of `setDefault` is keyed only by the
task type's id, not scoped to the calling user.  After `setDefault db u t`:
every task type of `u` other than `t` is unflagged; every row carrying id
`t` ends up flagged regardless of its owner; rows of other users with a
different id pass through unchanged; and when `t` belongs to a different
user `v` who already had a default, `v` ends with two flagged task types
while `u` ends with none. -/
theorem setDefault_not_user_scoped (db : List TaskTypeRow) (u t : String) :
    (∀ r' ∈ TaskTypeRepository.setDefault db u t, r'.userId = u → r'.id ≠ t →
        r'.isDefault = false)
    ∧ (∀ r ∈ db, r.id = t →
        ∃ r' ∈ TaskTypeRepository.setDefault db u t,
          r'.id = t ∧ r'.userId = r.userId ∧ r'.isDefault = true)
    ∧ (∀ r ∈ db, r.userId ≠ u → r.id ≠ t →
        r ∈ TaskTypeRepository.setDefault db u t)
    ∧ (∀ v, v ≠ u → (db.map TaskTypeRow.id).Nodup →
        ∀ rt ∈ db, rt.id = t → rt.userId = v →
        ∀ rd ∈ db, rd.userId = v → rd.isDefault = true → rd.id ≠ t →
          ((∃ r1 ∈ TaskTypeRepository.setDefault db u t,
            ∃ r2 ∈ TaskTypeRepository.setDefault db u t,
              r1.id ≠ r2.id ∧ r1.userId = v ∧ r2.userId = v
              ∧ r1.isDefault = true ∧ r2.isDefault = true)
           ∧ ∀ r' ∈ TaskTypeRepository.setDefault db u t, r'.userId = u →
               r'.isDefault = false)) := by
  have himg : ∀ r ∈ db,
      TaskTypeRepository.setRow t (TaskTypeRepository.clearRow u r) ∈
        TaskTypeRepository.setDefault db u t := by
    intro r hr
    rw [setDefault_eq_map]
    exact List.mem_map_of_mem _ hr
  have hflag : ∀ r ∈ db, r.id = t →
      ∃ r' ∈ TaskTypeRepository.setDefault db u t,
        r'.id = t ∧ r'.userId = r.userId ∧ r'.isDefault = true := by
    intro r hr hrt
    refine ⟨TaskTypeRepository.setRow t (TaskTypeRepository.clearRow u r),
      himg r hr, ?_, ?_, ?_⟩
    · rw [setRow_id, clearRow_id, hrt]
    · rw [setRow_userId, clearRow_userId]
    · rw [setDefault_row_isDefault, if_pos hrt]
  have hclear : ∀ r' ∈ TaskTypeRepository.setDefault db u t, r'.userId = u →
      r'.id ≠ t → r'.isDefault = false := by
    intro r' hr' hu' hnt
    rw [setDefault_eq_map] at hr'
    obtain ⟨r, hr, hfr⟩ := List.mem_map.mp hr'
    subst hfr
    rw [setRow_id, clearRow_id] at hnt
    rw [setRow_userId, clearRow_userId] at hu'
    rw [setDefault_row_isDefault, if_neg hnt, if_pos hu']
  have huntouched : ∀ r ∈ db, r.userId ≠ u → r.id ≠ t →
      r ∈ TaskTypeRepository.setDefault db u t := by
    intro r hr hu0 ht0
    have := himg r hr
    rwa [setDefault_row_untouched u t r hu0 ht0] at this
  refine ⟨hclear, hflag, huntouched, ?_⟩
  intro v hvu hnodup rt hrt hrtid hrtu rd hrd hrdu hrddef hrdt
  constructor
  · obtain ⟨r1, hm1, hid1, huser1, hdef1⟩ := hflag rt hrt hrtid
    refine ⟨r1, hm1, rd, huntouched rd hrd (by rw [hrdu]; exact hvu) hrdt,
      ?_, by rw [huser1, hrtu], hrdu, hdef1, hrddef⟩
    rw [hid1]
    exact fun h => hrdt h.symm
  · intro r' hr' hu'
    rw [setDefault_eq_map] at hr'
    obtain ⟨r, hr, hfr⟩ := List.mem_map.mp hr'
    subst hfr
    rw [setRow_userId, clearRow_userId] at hu'
    by_cases hrid : r.id = t
    · exfalso
      have hreq : r = rt := by
        apply List.inj_on_of_nodup_map hnodup hr hrt
        rw [hrid, hrtid]
      rw [hreq] at hu'
      exact hvu (hrtu ▸ hu'.symm ▸ rfl)
    · rw [setDefault_row_isDefault, if_neg hrid, if_pos hu']

/-- Witness for C9: user `v` owns `t9` (their current default is `d9`);
user `u` owns `m9`, currently the default.  `setDefault db u t9` leaves `v`
with two flagged task types and `u` with none. -/
theorem setDefault_not_user_scoped_witness :
    let rm : TaskTypeRow := ⟨"m9", none, "u", "Mine", none, none, true, 0, "c0"⟩
    let rt : TaskTypeRow := ⟨"t9", none, "v", "Theirs", none, none, false, 0, "c0"⟩
    let rd : TaskTypeRow := ⟨"d9", none, "v", "TheirDefault", none, none, true, 1, "c0"⟩
    (∃ r1 ∈ TaskTypeRepository.setDefault [rm, rt, rd] "u" "t9",
     ∃ r2 ∈ TaskTypeRepository.setDefault [rm, rt, rd] "u" "t9",
       r1.id ≠ r2.id ∧ r1.userId = "v" ∧ r2.userId = "v"
       ∧ r1.isDefault = true ∧ r2.isDefault = true)
    ∧ ∀ r' ∈ TaskTypeRepository.setDefault [rm, rt, rd] "u" "t9",
        r'.userId = "u" → r'.isDefault = false := by
  intro rm rt rd
  exact (setDefault_not_user_scoped [rm, rt, rd] "u" "t9").2.2.2 "v"
    (by decide) (by decide) rt (by simp) rfl rfl rd (by simp) rfl rfl (by decide)

end StrideDb
